import Mathlib

/-!
Shallow embedding of the `imgutil` layer-management core (local.go, remote.go).

The two backends are modelled as pure state-passing functions over explicit
record states.  External collaborators (the docker daemon, the registry, the
filesystem, sha256, JSON marshalling, the clock) are supplied as record-of-
functions "world" parameters; every failure point of a collaborator is modelled
by an `Except`-valued field.  Go's `(value, error)` returns become `GoResult`;
a Go runtime panic (out-of-range slice index) is the distinguished
`GoResult.panicked` outcome, kept separate from returned errors.
-/

namespace Imgutil

/-- Outcome of a Go call: returned value, returned non-nil error, or a runtime
panic (e.g. slice index out of range). -/
inductive GoResult (α : Type) where
  | ok : α → GoResult α
  | err : String → GoResult α
  | panicked : GoResult α
deriving DecidableEq

/-- Wrap a string in single quotes, as Go `fmt` verbs like `'%s'` do. -/
def quoted (s : String) : String := "\x27" ++ s ++ "\x27"

/-- `container.Config` / `v1.Config`: the recognized config fields.  Go maps
are modelled as association lists where a later write shadows an earlier one
(writes prepend); `Labels` here is only ever read via `List.lookup`. -/
structure GoContainerConfig where
  Labels : List (String × String)
  Env : List String
  Entrypoint : List String
  Cmd : List String
deriving DecidableEq

/-- The part of `types.ImageInspect` the core reads: `Config` (nil-able
pointer) and `RootFS.Layers`. -/
structure GoInspect where
  config : Option GoContainerConfig
  layers : List String
deriving DecidableEq

/-- Result of `ImageInspectWithRaw`: found, not-found error, or another
error (`client.IsErrNotFound` distinguishes the middle case). -/
inductive InspectRes where
  | found : GoInspect → InspectRes
  | notFound : InspectRes
  | failure : String → InspectRes
deriving DecidableEq

/-- One entry of a docker-save `manifest.json`: the config file name and the
ordered per-layer archive entry paths. -/
structure ManifestEntry where
  Config : String
  Layers : List String
deriving DecidableEq

/-- An extracted docker-save archive on disk: the temp directory it was
unpacked into, the decoded `manifest.json`, and the archive's config files
(file name ↦ decoded `rootfs.diff_ids`), looked up like the filesystem. -/
structure Archive where
  dir : String
  manifest : List ManifestEntry
  configs : List (String × List String)
deriving DecidableEq

/-- The config object built by `LocalImage.configFile` before JSON
marshalling (`os`, `created`, `config`, `rootfs.diff_ids`, `history`). -/
structure ConfigObj where
  os : String
  created : String
  config : Option GoContainerConfig
  diff_ids : List String
  historyLen : Nat
deriving DecidableEq

/-- External collaborators of the local backend.  `imageSave` folds
`Docker.ImageSave` + temp-dir creation + `untar` + reading/decoding
`manifest.json` into one fallible export of the persisted image;
`fileHash` folds `os.Open` + `io.Copy(sha256)` of a file into its hex
digest; `encodeConfig` is `json.Marshal`; `sha256hex` is `%x` of
`sha256.Sum256`; `now` is the formatted current time; `imageLoad` is the
docker-load goroutine's result read from the `done` channel. -/
structure DockerWorld where
  inspect : String → InspectRes
  imageSave : String → Except String Archive
  fileHash : String → Except String String
  openFile : String → Except String Unit
  parseTag : String → Except String String
  imageLoad : Except String Unit
  encodeConfig : ConfigObj → String
  sha256hex : String → String
  now : String

/-- `LocalImage` (local.go).  `config`/`layers` flatten
`Inspect.Config` / `Inspect.RootFS.Layers`; `prevMap` is the Go map
(association list, later writes in front); `prevArchive` records the
extracted previous-image archive sitting in `prevDir` once the export has
succeeded; `onceDone` is whether `prevOnce` has fired. -/
structure LocalImage where
  RepoName : String
  config : Option GoContainerConfig
  layers : List String
  layerPaths : List String
  prevDir : String
  prevMap : List (String × String)
  prevArchive : Option Archive
  onceDone : Bool
  easyAddLayers : List String
deriving DecidableEq

/-- `filepath.Join` for the paths the core builds (no cleaning needed). -/
def joinPath (dir file : String) : String := dir ++ "/" ++ file

/-- `NewLocalImage`: inspect the name; a non-not-found error aborts;
otherwise keep the inspect result (zero value when not found) and allocate
`layerPaths` with one (empty) slot per inspected layer. -/
def newLocalImage (w : DockerWorld) (repoName : String) : Except String LocalImage :=
  match w.inspect repoName with
  | .failure e => .error e
  | .notFound =>
      .ok { RepoName := repoName, config := none, layers := [],
            layerPaths := List.replicate 0 "", prevDir := "", prevMap := [],
            prevArchive := none, onceDone := false, easyAddLayers := [] }
  | .found d =>
      .ok { RepoName := repoName, config := d.config, layers := d.layers,
            layerPaths := List.replicate d.layers.length "", prevDir := "",
            prevMap := [], prevArchive := none, onceDone := false,
            easyAddLayers := [] }

/-- `LocalImage.Label`: nil config is a not-exist error; a missing key in
the Go label map reads as `""`. -/
def LocalImage.Label (l : LocalImage) (key : String) : GoResult String :=
  match l.config with
  | none => .err ("failed to get label, image " ++ quoted l.RepoName ++ " does not exist")
  | some cfg => .ok ((cfg.Labels.lookup key).getD "")

/-- `strings.Split` around every occurrence of a one-character separator
(`"FOO"` ↦ `["FOO"]`, `"a=b=c"` ↦ `["a","b","c"]`, `"="` ↦ `["",""]`);
never returns the empty list. -/
def splitOnChar (sep : Char) : List Char → List (List Char)
  | [] => [[]]
  | c :: cs =>
    let r := splitOnChar sep cs
    if c == sep then [] :: r
    else
      match r with
      | [] => [[c]]
      | g :: gs => (c :: g) :: gs

/-- `strings.Split(s, "=")` and friends, on the string's characters. -/
def goSplit (s : String) (sep : Char) : List String :=
  (splitOnChar sep s.data).map String.mk

/-- The env lookup loop shared verbatim by `LocalImage.Env` and
`RemoteImage.Env`: split each entry on every `=`, compare `parts[0]` to the
key, return `parts[1]` on a match.  `parts[1]` is an out-of-range index
when the matching entry contains no `=` (then the split yields a
singleton), hence `panicked`; the split never yields `[]`, but if it did,
reading `parts[0]` would also panic. -/
def envLookupGo (key : String) : List String → GoResult String
  | [] => .ok ""
  | e :: rest =>
    match goSplit e '=' with
    | [] => .panicked
    | p0 :: parts =>
      if p0 == key then
        match parts with
        | [] => .panicked
        | v :: _ => .ok v
      else envLookupGo key rest

/-- `LocalImage.Env`. -/
def LocalImage.Env (l : LocalImage) (key : String) : GoResult String :=
  match l.config with
  | none => .err ("failed to get env var, image " ++ quoted l.RepoName ++ " does not exist")
  | some cfg => envLookupGo key cfg.Env

/-- `LocalImage.sameBase`: the receiver's layer list is no longer than the
target's and matches it pointwise over its own length. -/
def sameBase (cur prev : List String) : Bool :=
  if prev.length < cur.length then false
  else (cur.zip prev).all (fun p => p.1 == p.2)

/-- `LocalImage.Rename`: clear the fast-path hint; if the new name inspects
cleanly and shares this image's base, set the hint to the target's extra
layers; finally adopt the new name. -/
def LocalImage.Rename (l : LocalImage) (w : DockerWorld) (name : String) : LocalImage :=
  let l1 : LocalImage := { l with easyAddLayers := [] }
  let l2 : LocalImage :=
    match w.inspect name with
    | .found prev =>
        if sameBase l1.layers prev.layers then
          { l1 with easyAddLayers := prev.layers.drop l1.layers.length }
        else l1
    | _ => l1
  { l2 with RepoName := name }

/-- `LocalImage.SetEnv`: nil config errors; otherwise unconditionally
append `KEY=VALUE` to the env list. -/
def LocalImage.SetEnv (l : LocalImage) (key val : String) : GoResult Unit × LocalImage :=
  match l.config with
  | none => (.err ("failed to set env var, image " ++ quoted l.RepoName ++ " does not exist"), l)
  | some cfg =>
      (.ok (), { l with config := some { cfg with Env := cfg.Env ++ [key ++ "=" ++ val] } })

/-- `LocalImage.TopLayer`: read `all[len(all)-1]` with no emptiness check;
on an empty layer list the index is out of range. -/
def LocalImage.TopLayer (l : LocalImage) : GoResult String :=
  match l.layers.getLast? with
  | none => .panicked
  | some t => .ok t

/-- `LocalImage.prevDownload`: the once-guarded export of the currently
persisted image.  When the guard has already fired, the body is skipped and
the call-local `outerErr` stays nil.  Otherwise export, remember the temp
dir and archive, require exactly one manifest entry, decode its config,
require matching layer/diffID counts, and build the diffID→entry-path map
(later zip entries shadow earlier ones, as Go map writes do).  The third
component counts underlying fetches performed by this call. -/
def LocalImage.prevDownload (l : LocalImage) (w : DockerWorld) :
    GoResult Unit × LocalImage × Nat :=
  if l.onceDone then (.ok (), l, 0)
  else
    match w.imageSave l.RepoName with
    | .error e => (.err e, { l with onceDone := true }, 1)
    | .ok ar =>
      match ar.manifest with
      | [entry] =>
        match ar.configs.lookup entry.Config with
        | none =>
          (.err ("open " ++ joinPath ar.dir entry.Config),
           { l with onceDone := true, prevDir := ar.dir, prevArchive := some ar }, 1)
        | some diffIDs =>
          if entry.Layers.length ≠ diffIDs.length then
            (.err ("layers and diff IDs do not match, there are " ++
                   toString entry.Layers.length ++ " layers and " ++
                   toString diffIDs.length ++ " diffIDs"),
             { l with onceDone := true, prevDir := ar.dir, prevArchive := some ar }, 1)
          else
            (.ok (),
             { l with onceDone := true, prevDir := ar.dir, prevArchive := some ar,
                      prevMap := (diffIDs.zip entry.Layers).foldl (fun m p => p :: m) [] }, 1)
      | ms =>
        (.err ("manifest.json had unexpected number of entries: " ++ toString ms.length),
         { l with onceDone := true, prevDir := ar.dir, prevArchive := some ar }, 1)

/-- `LocalImage.AddLayer`: hash the file's bytes, append
`sha256:<hex>` to the layers and the path to `layerPaths`, and invalidate
the fast-path hint. -/
def LocalImage.AddLayer (l : LocalImage) (w : DockerWorld) (path : String) :
    GoResult Unit × LocalImage :=
  match w.fileHash path with
  | .error e => (.err ("AddLayer: open layer: " ++ path ++ ": " ++ e), l)
  | .ok sha =>
      (.ok (), { l with layers := l.layers ++ ["sha256:" ++ sha],
                        layerPaths := l.layerPaths ++ [path],
                        easyAddLayers := [] })

/-- The slow path of `LocalImage.ReuseLayer` (everything after the
fast-path check): download the previous image, look the diffID up in
`prevMap`, re-add the archive entry through `AddLayer`. -/
def reuseSlow (l : LocalImage) (w : DockerWorld) (sha : String) :
    GoResult Unit × LocalImage × Nat :=
  match l.prevDownload w with
  | (.ok _, l1, c) =>
    match l1.prevMap.lookup sha with
    | none => (.err ("SHA " ++ sha ++ " was not found in " ++ l1.RepoName), l1, c)
    | some reuse =>
      ((l1.AddLayer w (joinPath l1.prevDir reuse)).1,
       (l1.AddLayer w (joinPath l1.prevDir reuse)).2, c)
  | out => out

/-- `LocalImage.ReuseLayer`: if the fast-path hint's first pending diffID
equals the request, append it by reference (empty path) and advance the
hint, with no fetch; otherwise take the slow path through the
Previous-Image Cache. -/
def LocalImage.ReuseLayer (l : LocalImage) (w : DockerWorld) (sha : String) :
    GoResult Unit × LocalImage × Nat :=
  match l.easyAddLayers with
  | first :: rest =>
    if first == sha then
      (.ok (), { l with layers := l.layers ++ [sha],
                        layerPaths := l.layerPaths ++ [""],
                        easyAddLayers := rest }, 0)
    else reuseSlow l w sha
  | [] => reuseSlow l w sha

/-- `LocalImage.GetLayer`: ensure the previous image is downloaded, look
the diffID up in `prevMap`, and open the matching archive entry (the opened
path stands in for the returned reader). -/
def LocalImage.GetLayer (l : LocalImage) (w : DockerWorld) (sha : String) :
    GoResult String × LocalImage × Nat :=
  match l.prevDownload w with
  | (.ok _, l1, c) =>
    match l1.prevMap.lookup sha with
    | none => (.err ("image " ++ quoted l1.RepoName ++
                     " does not contain layer with diff ID " ++ quoted sha), l1, c)
    | some layerID =>
      match w.openFile (joinPath l1.prevDir layerID) with
      | .error e => (.err e, l1, c)
      | .ok _ => (.ok (joinPath l1.prevDir layerID), l1, c)
  | (.err e, l1, c) => (.err e, l1, c)
  | (.panicked, l1, c) => (.panicked, l1, c)

/-- The `ADD EXISTING LAYERS` loop of `LocalImage.Rebase`: re-add each
retained archive entry by path, stopping at the first failure. -/
def addLayersLoop (w : DockerWorld) (dir : String) :
    List String → LocalImage → GoResult Unit × LocalImage
  | [], l => (.ok (), l)
  | f :: fs, l =>
    match l.AddLayer w (joinPath dir f) with
    | (.ok _, l1) => addLayersLoop w dir fs l1
    | out => out

/-- The `FIND TOP LAYER` loop of `LocalImage.Rebase`: index of the first
layer equal to the split diffID, scanning bottom-up (`none` models the
`keepLayers == -1` case). -/
def findKeepIdx (target : String) : List String → Option Nat
  | [] => none
  | d :: rest => if d == target then some 0 else (findKeepIdx target rest).map (· + 1)

/-- `LocalImage.Rebase`: find the split diffID bottom-up in the current
layers (keep count = layers past it); inspect the new base and adopt its
layer list (with fresh empty `layerPaths`); download the previous image;
re-read its manifest (the archive extracted into `prevDir`), requiring one
entry; then re-add the last `keepLayers` archive entries through
`AddLayer`. -/
def LocalImage.Rebase (l : LocalImage) (w : DockerWorld)
    (baseTopLayer newBaseName : String) : GoResult Unit × LocalImage × Nat :=
  match findKeepIdx baseTopLayer l.layers with
  | none => (.err (quoted baseTopLayer ++ " not found in " ++ quoted l.RepoName ++
                   " during rebase"), l, 0)
  | some i =>
    match w.inspect newBaseName with
    | .found nb =>
      match LocalImage.prevDownload
          { l with layers := nb.layers,
                   layerPaths := List.replicate nb.layers.length "" } w with
      | (.ok _, l2, c) =>
        match l2.prevArchive with
        | none => (.err "open manifest.json", l2, c)
        | some ar =>
          match ar.manifest with
          | [entry] =>
            ((addLayersLoop w l2.prevDir
                (entry.Layers.drop (entry.Layers.length - (l.layers.length - i - 1))) l2).1,
             (addLayersLoop w l2.prevDir
                (entry.Layers.drop (entry.Layers.length - (l.layers.length - i - 1))) l2).2, c)
          | ms => (.err ("expected 1 image received " ++ toString ms.length), l2, c)
      | out => out
    | .notFound => (.err "analyze read previous image config: not found", l, 0)
    | .failure e => (.err ("analyze read previous image config: " ++ e), l, 0)

/-- `LocalImage.configFile`: the config object marshalled by `Save` —
platform marker, current time, the image's config, `rootfs.diff_ids` equal
to the current layers, and one empty history entry per layer. -/
def LocalImage.configFile (l : LocalImage) (w : DockerWorld) : ConfigObj :=
  { os := "linux", created := w.now, config := l.config,
    diff_ids := l.layers, historyLen := l.layers.length }

/-- The layer-entry loop of `Save`: an empty path contributes an empty
placeholder name; a non-empty path must open, and contributes
`/<sha256-of-the-path>.tar`. -/
def saveLayerNames (w : DockerWorld) : List String → Except String (List String)
  | [] => .ok []
  | p :: ps =>
    if p = "" then (saveLayerNames w ps).map (fun r => "" :: r)
    else
      match w.openFile p with
      | .error e => .error e
      | .ok _ => (saveLayerNames w ps).map (fun r => ("/" ++ w.sha256hex p ++ ".tar") :: r)

/-- `LocalImage.Save`: validate the tag, marshal the config object, name
the image by the sha256 of those bytes, stream config + layer entries +
manifest to docker-load, clean up the previous-image temp dir (resetting
the once guard), and confirm the identifier is now inspectable. -/
def LocalImage.Save (l : LocalImage) (w : DockerWorld) : GoResult String × LocalImage :=
  match w.parseTag l.RepoName with
  | .error e => (.err e, l)
  | .ok _ =>
    let imgID := w.sha256hex (w.encodeConfig (l.configFile w))
    match saveLayerNames w l.layerPaths with
    | .error e => (.err e, l)
    | .ok _ =>
      let l1 : LocalImage :=
        if l.prevDir ≠ "" then
          { l with prevDir := "", prevMap := [], prevArchive := none, onceDone := false }
        else l
      match w.inspect imgID with
      | .notFound => (.err ("save image " ++ quoted l1.RepoName), l1)
      | .failure e => (.err e, l1)
      | .found _ =>
        match w.imageLoad with
        | .error e => (.err e, l1)
        | .ok _ => (.ok imgID, l1)

deriving instance DecidableEq for Except

/-- A `v1.Layer` as the core reads it: its `DiffID()` call, which can
fail. -/
structure VLayer where
  diffID : Except String String
deriving DecidableEq

/-- The config file of a remote image (`v1.ConfigFile.Config`). -/
structure RConfig where
  Labels : List (String × String)
  Env : List String
  Entrypoint : List String
  Cmd : List String
deriving DecidableEq

/-- `RemoteImage` (remote.go).  `configFile = none` stands for
`Image.ConfigFile()` erroring or returning nil; `layers` is
`Image.Layers()`; `onceDone` is whether `prevOnce` has fired. -/
structure RemoteImage where
  RepoName : String
  configFile : Option RConfig
  layers : List VLayer
  PrevLayers : List VLayer
  onceDone : Bool
deriving DecidableEq

/-- External collaborator of the remote backend: `newV1Image` +
`prevImage.Layers()` for the once-only previous-image fetch (both failure
points folded into the `Except`). -/
structure RegistryWorld where
  fetchPrevLayers : String → Except String (List VLayer)

/-- `RemoteImage.Label`. -/
def RemoteImage.Label (r : RemoteImage) (key : String) : GoResult String :=
  match r.configFile with
  | none => .err ("failed to get label, image " ++ quoted r.RepoName ++ " does not exist")
  | some cfg => .ok ((cfg.Labels.lookup key).getD "")

/-- `RemoteImage.Env`: the same split-and-compare loop as the local
backend. -/
def RemoteImage.Env (r : RemoteImage) (key : String) : GoResult String :=
  match r.configFile with
  | none => .err ("failed to get env var, image " ++ quoted r.RepoName ++ " does not exist")
  | some cfg => envLookupGo key cfg.Env

/-- The replace-or-append loop of `RemoteImage.SetEnv`: the first entry
whose part before the first `=` equals the key is overwritten in place and
the scan stops; otherwise `KEY=VALUE` is appended.  (The split never
yields `[]`; that branch keeps the entry.) -/
def setEnvList (key val : String) : List String → List String
  | [] => [key ++ "=" ++ val]
  | e :: rest =>
    match goSplit e '=' with
    | [] => e :: setEnvList key val rest
    | p0 :: _ =>
      if p0 == key then (key ++ "=" ++ val) :: rest
      else e :: setEnvList key val rest

/-- `RemoteImage.SetEnv` (the `mutate.Config` rewrap is modelled as the
config replacement it performs). -/
def RemoteImage.SetEnv (r : RemoteImage) (key val : String) : GoResult Unit × RemoteImage :=
  match r.configFile with
  | none => (.err "get config file", r)
  | some cfg =>
      (.ok (), { r with configFile := some { cfg with Env := setEnvList key val cfg.Env } })

/-- `RemoteImage.TopLayer`: read `all[len(all)-1]` with no emptiness
check, then its diffID; on an empty layer list the index is out of
range. -/
def RemoteImage.TopLayer (r : RemoteImage) : GoResult String :=
  match r.layers.getLast? with
  | none => .panicked
  | some layer =>
    match layer.diffID with
    | .error e => .err e
    | .ok d => .ok d

/-- `findLayerWithSha`: linear scan of the previous layers by diffID;
a diffID read error aborts; a miss reports the sha (and only the sha). -/
def findLayerWithSha : List VLayer → String → Except String VLayer
  | [], sha => .error ("previous image did not have layer with sha " ++ quoted sha)
  | layer :: rest, sha =>
    match layer.diffID with
    | .error e => .error ("get diff ID for previous image layer: " ++ e)
    | .ok d => if sha == d then .ok layer else findLayerWithSha rest sha

/-- `RemoteImage.ReuseLayer`: once-guarded fetch of the previous image's
layers (the call-local `outerErr` stays nil when the guard has already
fired), then `findLayerWithSha` and append.  The third component counts
fetches performed by this call. -/
def RemoteImage.ReuseLayer (r : RemoteImage) (w : RegistryWorld) (sha : String) :
    GoResult Unit × RemoteImage × Nat :=
  let step2 : RemoteImage → Nat → GoResult Unit × RemoteImage × Nat := fun r1 c =>
    match findLayerWithSha r1.PrevLayers sha with
    | .error e => (.err e, r1, c)
    | .ok layer => (.ok (), { r1 with layers := r1.layers ++ [layer] }, c)
  if r.onceDone then step2 r 0
  else
    match w.fetchPrevLayers r.RepoName with
    | .error e => (.err e, { r with onceDone := true }, 1)
    | .ok ls => step2 { r with onceDone := true, PrevLayers := ls } 1

/-- `subImage.Layers`: the base portion of the image — all layers up to and
including the first one whose diffID equals `topSHA` (this is what
`mutate.Rebase` swaps out for the new base, leaving `all[i+1:]` on top). -/
def subImageLayers (topSHA : String) : List VLayer → Except String (List VLayer)
  | [] => .error "could not find base layer in image"
  | layer :: rest =>
    match layer.diffID with
    | .error e => .error e
    | .ok d =>
      if d == topSHA then .ok [layer]
      else (subImageLayers topSHA rest).map (fun tail => layer :: tail)

/-! Predicates used to state preconditions, and concrete fixtures used to
instantiate the theorems. -/

/-- `e` is an env entry whose part before the first `=` differs from
`key` (so the lookup loop passes over it). -/
def noEnvKeyMatch (key e : String) : Bool :=
  match goSplit e '=' with
  | [] => false
  | p0 :: _ => !(p0 == key)

/-- `ly` has a readable diffID different from `sha`. -/
def noLayerWithSha (sha : String) (ly : VLayer) : Bool :=
  match ly.diffID with
  | .ok d => !(sha == d)
  | .error _ => false

/-- `ly` has a readable diffID different from `topSHA` (scan order of
`subImage.Layers`). -/
def layerNotSha (topSHA : String) (ly : VLayer) : Bool :=
  match ly.diffID with
  | .ok d => !(d == topSHA)
  | .error _ => false

/-- The fast-path hint does not match `sha` (empty, or its first pending
diffID differs). -/
def fastPathMiss (sha : String) (l : LocalImage) : Bool :=
  match l.easyAddLayers with
  | [] => true
  | d :: _ => !(d == sha)

/-- A character `%x` can emit: a lowercase hex digit (the image
identifier `fmt.Sprintf("%x", sha256.Sum256(...))` is made only of
these). -/
def isHexChar (c : Char) : Bool :=
  c.isDigit || (Char.ofNat 97 ≤ c && c ≤ Char.ofNat 102)

/-- The positional correspondence `Save` relies on: one `layerPaths` slot
per layer. -/
def pathsAligned (l : LocalImage) : Prop :=
  l.layerPaths.length = l.layers.length

/-- A fresh `LocalImage` state over the given inspect data. -/
def mkLocal (name : String) (cfg : Option GoContainerConfig) (layers : List String) :
    LocalImage :=
  { RepoName := name, config := cfg, layers := layers,
    layerPaths := List.replicate layers.length "", prevDir := "", prevMap := [],
    prevArchive := none, onceDone := false, easyAddLayers := [] }

def emptyCfg : GoContainerConfig := { Labels := [], Env := [], Entrypoint := [], Cmd := [] }

/-- A docker world in which every external call fails or is inert. -/
def wNoop : DockerWorld :=
  { inspect := fun _ => .notFound
  , imageSave := fun _ => .error "no docker"
  , fileHash := fun _ => .error "no file"
  , openFile := fun _ => .error "no file"
  , parseTag := fun s => .ok s
  , imageLoad := .ok ()
  , encodeConfig := fun _ => ""
  , sha256hex := fun _ => ""
  , now := "t0" }

def wRegNoop : RegistryWorld := { fetchPrevLayers := fun _ => .error "no registry" }

/- C1 fixtures: a world whose one export fails. -/
def wC1 : DockerWorld := { wNoop with imageSave := fun _ => .error "boom" }
def lC1 : LocalImage := mkLocal "img" (some emptyCfg) []
def lC1b : LocalImage := { lC1 with onceDone := true }
def rC1 : RemoteImage :=
  { RepoName := "img", configFile := none, layers := [], PrevLayers := [], onceDone := false }
def wRegC1 : RegistryWorld := { fetchPrevLayers := fun _ => .error "boom" }

/- C2 fixtures: an existing image with one FOO entry. -/
def envCfgFoo : GoContainerConfig := { Labels := [], Env := ["FOO=1"], Entrypoint := [], Cmd := [] }
def lC2 : LocalImage := mkLocal "app" (some envCfgFoo) []
def rC2 : RemoteImage :=
  { RepoName := "app",
    configFile := some { Labels := [], Env := ["FOO=1"], Entrypoint := [], Cmd := [] },
    layers := [], PrevLayers := [], onceDone := false }

/- C3 fixtures: image [b1, b2, a1], split b2, new base [c1]; the archive
carries the three old layers, the retained entry hashing back to a1. -/
def arC3 : Archive :=
  { dir := "/tmp/prev",
    manifest := [⟨"cfg.json", ["l0.tar", "l1.tar", "l2.tar"]⟩],
    configs := [("cfg.json", ["sha256:b1", "sha256:b2", "sha256:a1"])] }
def nbC3 : GoInspect := { config := some emptyCfg, layers := ["sha256:c1"] }
def wC3 : DockerWorld :=
  { wNoop with
    inspect := fun n => if n == "newbase" then .found nbC3 else .notFound,
    imageSave := fun _ => .ok arC3,
    fileHash := fun p => if p == "/tmp/prev/l2.tar" then .ok "a1" else .error "no file" }
def lC3 : LocalImage := mkLocal "app" (some emptyCfg) ["sha256:b1", "sha256:b2", "sha256:a1"]
def sC3 : VLayer := { diffID := .ok "sha256:b2" }

/- C4 fixtures: images with empty layer stacks. -/
def lC4 : LocalImage := mkLocal "app" (some emptyCfg) []
def rC4 : RemoteImage :=
  { RepoName := "app", configFile := some { Labels := [], Env := [], Entrypoint := [], Cmd := [] },
    layers := [], PrevLayers := [], onceDone := false }

/- C5 fixtures: renaming onto a target that extends the current stack. -/
def prevC5 : GoInspect := { config := some emptyCfg, layers := ["sha256:a", "sha256:b"] }
def wC5 : DockerWorld :=
  { wNoop with inspect := fun n => if n == "tgt" then .found prevC5 else .notFound }
def lC5 : LocalImage := mkLocal "app" (some emptyCfg) ["sha256:a"]
def lC5r : LocalImage := { lC5 with RepoName := "tgt", easyAddLayers := ["sha256:b"] }

/- C6 fixtures: a save world with constant hash and encoder. -/
def wC6 : DockerWorld :=
  { wNoop with
    sha256hex := fun _ => "abc123",
    encodeConfig := fun _ => "cfgjson",
    inspect := fun _ => .found ⟨none, []⟩ }
def lC6 : LocalImage := mkLocal "app" (some emptyCfg) ["sha256:x"]

/- C7 fixtures: a loaded previous image that lacks the requested sha. -/
def rC7 : RemoteImage :=
  { RepoName := "registry.example/app", configFile := none, layers := [],
    PrevLayers := [⟨.ok "sha256:aaa"⟩], onceDone := true }
def lC7 : LocalImage :=
  { mkLocal "app" (some emptyCfg) [] with
    onceDone := true,
    prevMap := [("sha256:aaa", "l0.tar")] }

/- C8 fixtures. -/
def lC8none : LocalImage := mkLocal "gone" none []
def rC8none : RemoteImage :=
  { RepoName := "gone", configFile := none, layers := [], PrevLayers := [], onceDone := false }
def cfgC8 : GoContainerConfig :=
  { Labels := [("team", "x")], Env := ["PATH=/bin"], Entrypoint := [], Cmd := [] }
def lC8 : LocalImage := mkLocal "app" (some cfgC8) []
def rcfgC8 : RConfig :=
  { Labels := [("team", "x")], Env := ["PATH=/bin"], Entrypoint := [], Cmd := [] }
def rC8 : RemoteImage :=
  { RepoName := "app", configFile := some rcfgC8, layers := [], PrevLayers := [], onceDone := false }

/- C9 fixtures. -/
def wC9 : DockerWorld :=
  { wNoop with
    inspect := fun _ => .found ⟨some emptyCfg, ["sha256:a"]⟩,
    fileHash := fun _ => .ok "h0" }
def lC9 : LocalImage := mkLocal "app" (some emptyCfg) ["sha256:a"]

/- C10 fixtures: an env entry equal to the key, with no =. -/
def cfgC10 : GoContainerConfig :=
  { Labels := [], Env := ["TERM"], Entrypoint := [], Cmd := [] }
def lC10 : LocalImage := mkLocal "app" (some cfgC10) []
def rcfgC10 : RConfig := { Labels := [], Env := ["TERM"], Entrypoint := [], Cmd := [] }
def rC10 : RemoteImage :=
  { RepoName := "app", configFile := some rcfgC10, layers := [], PrevLayers := [], onceDone := false }
def cfgC10b : GoContainerConfig :=
  { Labels := [], Env := ["KEY=a=b"], Entrypoint := [], Cmd := [] }
def lC10b : LocalImage := mkLocal "app" (some cfgC10b) []
def rcfgC10b : RConfig := { Labels := [], Env := ["KEY=a=b"], Entrypoint := [], Cmd := [] }
def rC10b : RemoteImage :=
  { RepoName := "app", configFile := some rcfgC10b, layers := [], PrevLayers := [], onceDone := false }

/-! ## Theorems -/

/-- The env lookup loop passes over a list none of whose entries parse to
the key, and falls out with the empty string and no error. -/
theorem envLookupGo_no_match (key : String) :
    ∀ env : List String, env.all (noEnvKeyMatch key) = true →
      envLookupGo key env = .ok "" := by
  intro env
  induction env with
  | nil => intro _; rfl
  | cons e rest ih =>
    intro h
    rw [List.all_cons, Bool.and_eq_true] at h
    obtain ⟨h1, h2⟩ := h
    unfold noEnvKeyMatch at h1
    simp only [envLookupGo]
    cases hsp : goSplit e '=' with
    | nil => rw [hsp] at h1; exact absurd h1 (by simp)
    | cons p0 parts =>
      rw [hsp] at h1
      simp only [Bool.not_eq_eq_eq_not, Bool.not_true] at h1
      simp [h1, ih h2]

/-- The env lookup loop reaches an entry equal to the key itself that
contains no `=`: the split of that entry is the one-element list, the key
comparison succeeds, and reading `parts[1]` is out of range. -/
theorem envLookupGo_no_eq_panics (key : String) (hkey : goSplit key '=' = [key]) :
    ∀ (pre post : List String), pre.all (noEnvKeyMatch key) = true →
      envLookupGo key (pre ++ key :: post) = .panicked := by
  intro pre
  induction pre with
  | nil =>
    intro post _
    simp [envLookupGo, hkey]
  | cons e pre ih =>
    intro post h
    rw [List.all_cons, Bool.and_eq_true] at h
    obtain ⟨h1, h2⟩ := h
    unfold noEnvKeyMatch at h1
    simp only [List.cons_append, envLookupGo]
    cases hsp : goSplit e '=' with
    | nil => rw [hsp] at h1
    | cons p0 parts =>
      rw [hsp] at h1
      simp only [Bool.not_eq_eq_eq_not, Bool.not_true] at h1
      simp [h1, ih post h2]

/-- C8: on both backends, `Label` and `Env` fail with a not-exist error
when no config is loaded (the image does not exist), and return the empty
string without error when the image exists but has no entry for the key
(no label under the key; no env entry whose part before the first `=` is
the key). -/
theorem getters_notfound_vs_absent_key :
    (∀ (l : LocalImage) (key : String), l.config = none →
       l.Label key = .err ("failed to get label, image " ++ quoted l.RepoName ++ " does not exist")
       ∧ l.Env key = .err ("failed to get env var, image " ++ quoted l.RepoName ++ " does not exist"))
    ∧ (∀ (r : RemoteImage) (key : String), r.configFile = none →
       r.Label key = .err ("failed to get label, image " ++ quoted r.RepoName ++ " does not exist")
       ∧ r.Env key = .err ("failed to get env var, image " ++ quoted r.RepoName ++ " does not exist"))
    ∧ (∀ (l : LocalImage) (cfg : GoContainerConfig) (key : String), l.config = some cfg →
       (cfg.Labels.lookup key = none → l.Label key = .ok "")
       ∧ (cfg.Env.all (noEnvKeyMatch key) = true → l.Env key = .ok ""))
    ∧ (∀ (r : RemoteImage) (cfg : RConfig) (key : String), r.configFile = some cfg →
       (cfg.Labels.lookup key = none → r.Label key = .ok "")
       ∧ (cfg.Env.all (noEnvKeyMatch key) = true → r.Env key = .ok "")) := by
  refine ⟨fun l key h => ?_, fun r key h => ?_, fun l cfg key h => ?_, fun r cfg key h => ?_⟩
  · exact ⟨by simp [LocalImage.Label, h], by simp [LocalImage.Env, h]⟩
  · exact ⟨by simp [RemoteImage.Label, h], by simp [RemoteImage.Env, h]⟩
  · refine ⟨fun hl => ?_, fun he => ?_⟩
    · simp [LocalImage.Label, h, hl]
    · simp [LocalImage.Env, h, envLookupGo_no_match key cfg.Env he]
  · refine ⟨fun hl => ?_, fun he => ?_⟩
    · simp [RemoteImage.Label, h, hl]
    · simp [RemoteImage.Env, h, envLookupGo_no_match key cfg.Env he]

/-- C8 witness: concrete nonexistent images error; a concrete existing
image with label `team` and env `PATH=/bin` reads `""` for the absent
label `owner` and the absent env key `HOME`. -/
theorem getters_notfound_vs_absent_key_witness :
    lC8none.Label "team" =
      .err ("failed to get label, image " ++ quoted "gone" ++ " does not exist")
    ∧ rC8none.Env "PATH" =
      .err ("failed to get env var, image " ++ quoted "gone" ++ " does not exist")
    ∧ lC8.Label "owner" = .ok "" ∧ lC8.Env "HOME" = .ok ""
    ∧ rC8.Label "owner" = .ok "" ∧ rC8.Env "HOME" = .ok "" :=
  ⟨(getters_notfound_vs_absent_key.1 lC8none "team" rfl).1,
   (getters_notfound_vs_absent_key.2.1 rC8none "PATH" rfl).2,
   (getters_notfound_vs_absent_key.2.2.1 lC8 cfgC8 "owner" rfl).1 (by decide),
   (getters_notfound_vs_absent_key.2.2.1 lC8 cfgC8 "HOME" rfl).2 (by decide),
   (getters_notfound_vs_absent_key.2.2.2 rC8 rcfgC8 "owner" rfl).1 (by decide),
   (getters_notfound_vs_absent_key.2.2.2 rC8 rcfgC8 "HOME" rfl).2 (by decide)⟩

/-- C10: on both backends `Env` splits each entry on every `=` and reads
the part after the first.  When the first entry parsing to the key is an
entry equal to the key itself with no `=` (so its split is the singleton
`[key]`), the loop reads `parts[1]` out of range and panics instead of
returning a value or an error; and for an entry `KEY=a=b` the lookup of
`KEY` returns `a`, not `a=b`. -/
theorem env_entry_without_eq_panics :
    (∀ (l : LocalImage) (cfg : GoContainerConfig) (key : String) (pre post : List String),
       l.config = some cfg → cfg.Env = pre ++ key :: post →
       goSplit key '=' = [key] → pre.all (noEnvKeyMatch key) = true →
       l.Env key = .panicked)
    ∧ (∀ (r : RemoteImage) (cfg : RConfig) (key : String) (pre post : List String),
       r.configFile = some cfg → cfg.Env = pre ++ key :: post →
       goSplit key '=' = [key] → pre.all (noEnvKeyMatch key) = true →
       r.Env key = .panicked)
    ∧ (∀ (l : LocalImage) (cfg : GoContainerConfig),
       l.config = some cfg → cfg.Env = ["KEY=a=b"] → l.Env "KEY" = .ok "a")
    ∧ (∀ (r : RemoteImage) (cfg : RConfig),
       r.configFile = some cfg → cfg.Env = ["KEY=a=b"] → r.Env "KEY" = .ok "a") := by
  refine ⟨fun l cfg key pre post h he hk hp => ?_,
          fun r cfg key pre post h he hk hp => ?_,
          fun l cfg h he => ?_, fun r cfg h he => ?_⟩
  · simp [LocalImage.Env, h, he, envLookupGo_no_eq_panics key hk pre post hp]
  · simp [RemoteImage.Env, h, he, envLookupGo_no_eq_panics key hk pre post hp]
  · simp only [LocalImage.Env, h, he]; decide
  · simp only [RemoteImage.Env, h, he]; decide

/-- C10 witness: an existing image whose env is `[TERM]` panics on
`Env TERM`; one whose env is `[KEY=a=b]` returns `a` for `Env KEY`. -/
theorem env_entry_without_eq_panics_witness :
    lC10.Env "TERM" = .panicked ∧ rC10.Env "TERM" = .panicked
    ∧ lC10b.Env "KEY" = .ok "a" ∧ rC10b.Env "KEY" = .ok "a" :=
  ⟨env_entry_without_eq_panics.1 lC10 cfgC10 "TERM" [] [] rfl rfl (by decide) rfl,
   env_entry_without_eq_panics.2.1 rC10 rcfgC10 "TERM" [] [] rfl rfl (by decide) rfl,
   env_entry_without_eq_panics.2.2.1 lC10b cfgC10b rfl rfl,
   env_entry_without_eq_panics.2.2.2 rC10b rcfgC10b rfl rfl⟩

/-- `sameBase` accepts any extension of the current layer list. -/
theorem sameBase_append (c t : List String) : sameBase c (c ++ t) = true := by
  unfold sameBase
  have hlen : ¬ (c ++ t).length < c.length := by
    rw [List.length_append]; omega
  rw [if_neg hlen]
  induction c with
  | nil => rfl
  | cons a c ih => simpa using ih

/-- C5: on the local backend, `Rename` establishes the fast-path hint
equal to the target stack's suffix beyond the current stack whenever the
target's existing stack extends the current one as a prefix; afterwards a
`ReuseLayer` whose diffID equals the first pending hint entry appends that
diffID directly (by-reference empty path), advances the hint, and performs
no Previous-Image Cache fetch (state otherwise untouched, fetch count 0). -/
theorem rename_fast_path_hint :
    (∀ (w : DockerWorld) (l : LocalImage) (newName : String) (prev : GoInspect)
       (tail : List String),
       w.inspect newName = .found prev →
       prev.layers = l.layers ++ tail →
       l.Rename w newName = { l with RepoName := newName, easyAddLayers := tail })
    ∧ (∀ (w : DockerWorld) (l : LocalImage) (d : String) (rest : List String),
       l.easyAddLayers = d :: rest →
       l.ReuseLayer w d = (.ok (), { l with layers := l.layers ++ [d],
                                            layerPaths := l.layerPaths ++ [""],
                                            easyAddLayers := rest }, 0)) := by
  constructor
  · intro w l newName prev tail hins hprev
    have hsb : sameBase l.layers (l.layers ++ tail) = true := sameBase_append _ _
    simp [LocalImage.Rename, hins, hprev, hsb, List.drop_left]
  · intro w l d rest he
    simp [LocalImage.ReuseLayer, he]

/-- C5 witness: renaming `app` (layers `[sha256:a]`) to target `tgt`
(layers `[sha256:a, sha256:b]`) sets the hint to `[sha256:b]`; reusing
`sha256:b` then appends it with an empty path and no fetch. -/
theorem rename_fast_path_hint_witness :
    lC5.Rename wC5 "tgt" = lC5r
    ∧ lC5r.ReuseLayer wC5 "sha256:b" =
        (.ok (), { lC5r with layers := lC5r.layers ++ ["sha256:b"],
                             layerPaths := lC5r.layerPaths ++ [""],
                             easyAddLayers := [] }, 0) :=
  ⟨rename_fast_path_hint.1 wC5 lC5 "tgt" prevC5 ["sha256:b"] (by decide) rfl,
   rename_fast_path_hint.2 wC5 lC5r "sha256:b" [] rfl⟩

/-- `findLayerWithSha` on a list of layers all of whose diffIDs read
successfully and differ from the sha reports the miss message. -/
theorem findLayerWithSha_miss (sha : String) :
    ∀ layers : List VLayer, layers.all (noLayerWithSha sha) = true →
      findLayerWithSha layers sha =
        .error ("previous image did not have layer with sha " ++ quoted sha) := by
  intro layers
  induction layers with
  | nil => intro _; rfl
  | cons ly rest ih =>
    intro h
    rw [List.all_cons, Bool.and_eq_true] at h
    obtain ⟨h1, h2⟩ := h
    unfold noLayerWithSha at h1
    simp only [findLayerWithSha]
    cases hd : ly.diffID with
    | error e => rw [hd] at h1; exact absurd h1 (by simp)
    | ok d =>
      rw [hd] at h1
      simp only [Bool.not_eq_eq_eq_not, Bool.not_true] at h1
      simp [h1, ih h2]

/-- C7 (amended): a `ReuseLayer` whose diffID matches neither the
fast-path hint nor any layer of the (loaded) previous image fails and
leaves the whole image state — in particular `layers` — unmodified, with
no new fetch; the local error names the diffID and the image name, the
remote error names only the diffID. -/
theorem reuse_layer_not_found :
    (∀ (w : DockerWorld) (l : LocalImage) (sha : String),
       fastPathMiss sha l = true → l.onceDone = true → l.prevMap.lookup sha = none →
       l.ReuseLayer w sha =
         (.err ("SHA " ++ sha ++ " was not found in " ++ l.RepoName), l, 0))
    ∧ (∀ (w : RegistryWorld) (r : RemoteImage) (sha : String),
       r.onceDone = true → r.PrevLayers.all (noLayerWithSha sha) = true →
       r.ReuseLayer w sha =
         (.err ("previous image did not have layer with sha " ++ quoted sha), r, 0)) := by
  constructor
  · intro w l sha hf ho hm
    unfold fastPathMiss at hf
    simp only [LocalImage.ReuseLayer]
    cases he : l.easyAddLayers with
    | nil => simp [reuseSlow, LocalImage.prevDownload, ho, hm]
    | cons d rest =>
      rw [he] at hf
      simp only [Bool.not_eq_eq_eq_not, Bool.not_true] at hf
      simp [hf, reuseSlow, LocalImage.prevDownload, ho, hm]
  · intro w r sha ho hall
    simp [RemoteImage.ReuseLayer, ho, findLayerWithSha_miss sha r.PrevLayers hall]

/-- C7 witness: a local image with a loaded previous map lacking
`sha256:zzz` errors naming both the sha and the name `app`; the remote
image lacking `sha256:bbb` errors naming the sha; both states are
returned unchanged. -/
theorem reuse_layer_not_found_witness :
    lC7.ReuseLayer wNoop "sha256:zzz" =
      (.err ("SHA " ++ "sha256:zzz" ++ " was not found in " ++ lC7.RepoName), lC7, 0)
    ∧ rC7.ReuseLayer wRegNoop "sha256:bbb" =
      (.err ("previous image did not have layer with sha " ++ quoted "sha256:bbb"), rC7, 0) :=
  ⟨reuse_layer_not_found.1 wNoop lC7 "sha256:zzz" rfl rfl (by decide),
   reuse_layer_not_found.2 wRegNoop rC7 "sha256:bbb" rfl (by decide)⟩

/-- C1 (amended): the underlying fetch is indeed never re-executed once
the guard has fired — but the fetch error is not stored.  After a failed
fetch the guard is fired and later triggers return nil from the guard
(local `prevDownload`) or run against the unpopulated cached layer list
(remote `ReuseLayer`), reporting a layer-lookup miss instead of replaying
the fetch error. -/
theorem prevCache_fetch_once_error_dropped :
    (∀ (w : DockerWorld) (l : LocalImage), l.onceDone = true →
       l.prevDownload w = (.ok (), l, 0))
    ∧ (∀ (w : DockerWorld) (l : LocalImage) (e : String), l.onceDone = false →
       w.imageSave l.RepoName = .error e →
       l.prevDownload w = (.err e, { l with onceDone := true }, 1))
    ∧ (∀ (w : RegistryWorld) (r : RemoteImage) (sha : String), r.onceDone = true →
       (r.ReuseLayer w sha).2.2 = 0)
    ∧ (∀ (w : RegistryWorld) (r : RemoteImage) (sha e : String),
       r.onceDone = false → r.PrevLayers = [] →
       w.fetchPrevLayers r.RepoName = .error e →
       r.ReuseLayer w sha = (.err e, { r with onceDone := true }, 1)
       ∧ ({ r with onceDone := true } : RemoteImage).ReuseLayer w sha =
           (.err ("previous image did not have layer with sha " ++ quoted sha),
            { r with onceDone := true }, 0)) := by
  refine ⟨fun w l h => ?_, fun w l e h hs => ?_, fun w r sha h => ?_,
          fun w r sha e h hp hf => ⟨?_, ?_⟩⟩
  · simp [LocalImage.prevDownload, h]
  · simp [LocalImage.prevDownload, h, hs]
  · simp only [RemoteImage.ReuseLayer, h, if_true]
    cases findLayerWithSha r.PrevLayers sha <;> simp
  · simp [RemoteImage.ReuseLayer, h, hf]
  · simp [RemoteImage.ReuseLayer, hp, findLayerWithSha]

/-- C1 witness: with an export that fails with `boom`, the guarded state
skips the fetch and returns success; the fresh state returns the fetch
error once; the remote image after a failed fetch reports the lookup miss,
not `boom`. -/
theorem prevCache_fetch_once_error_dropped_witness :
    lC1b.prevDownload wC1 = (.ok (), lC1b, 0)
    ∧ lC1.prevDownload wC1 = (.err "boom", lC1b, 1)
    ∧ (rC7.ReuseLayer wRegNoop "sha256:aaa").2.2 = 0
    ∧ (rC1.ReuseLayer wRegC1 "sha256:x" = (.err "boom", { rC1 with onceDone := true }, 1)
       ∧ ({ rC1 with onceDone := true } : RemoteImage).ReuseLayer wRegC1 "sha256:x" =
           (.err ("previous image did not have layer with sha " ++ quoted "sha256:x"),
            { rC1 with onceDone := true }, 0)) :=
  ⟨prevCache_fetch_once_error_dropped.1 wC1 lC1b rfl,
   prevCache_fetch_once_error_dropped.2.1 wC1 lC1 "boom" rfl rfl,
   prevCache_fetch_once_error_dropped.2.2.1 wRegNoop rC7 "sha256:aaa" rfl,
   prevCache_fetch_once_error_dropped.2.2.2 wRegC1 rC1 "sha256:x" "boom" rfl rfl rfl⟩

/-- `prevDownload` never touches `layers` or `layerPaths`. -/
theorem prevDownload_preserves (l : LocalImage) (w : DockerWorld) :
    ((l.prevDownload w).2.1).layers = l.layers
    ∧ ((l.prevDownload w).2.1).layerPaths = l.layerPaths := by
  unfold LocalImage.prevDownload
  split
  · simp
  · split
    · simp
    · split
      · split
        · simp
        · split
          · simp
          · simp
      · simp

/-- `prevDownload` preserves the slot-per-layer correspondence. -/
theorem prevDownload_aligned (l : LocalImage) (w : DockerWorld)
    (h : pathsAligned l) : pathsAligned ((l.prevDownload w).2.1) := by
  have hp := prevDownload_preserves l w
  unfold pathsAligned at h ⊢
  rw [hp.1, hp.2]
  exact h

/-- `AddLayer` keeps one `layerPaths` slot per layer: failure leaves the
state unchanged, success appends one slot and one layer. -/
theorem addLayer_aligned (w : DockerWorld) (p : String) (l : LocalImage)
    (h : pathsAligned l) : pathsAligned ((l.AddLayer w p).2) := by
  unfold LocalImage.AddLayer
  split
  · exact h
  · simpa [pathsAligned] using h

/-- The rebase re-add loop preserves the slot-per-layer correspondence. -/
theorem addLayersLoop_aligned (w : DockerWorld) (dir : String) :
    ∀ (fs : List String) (l : LocalImage), pathsAligned l →
      pathsAligned ((addLayersLoop w dir fs l).2) := by
  intro fs
  induction fs with
  | nil => intro l h; exact h
  | cons f fs ih =>
    intro l h
    have hadd := addLayer_aligned w (joinPath dir f) l h
    rcases ha : l.AddLayer w (joinPath dir f) with ⟨res, l1⟩
    rw [ha] at hadd
    unfold addLayersLoop
    rw [ha]
    cases res with
    | ok u => exact ih l1 hadd
    | err e => exact hadd
    | panicked => exact hadd

/-- The slow path of `ReuseLayer` preserves the slot-per-layer
correspondence (miss, failure, or re-add). -/
theorem reuseSlow_aligned (w : DockerWorld) (sha : String) (l : LocalImage)
    (h : pathsAligned l) : pathsAligned ((reuseSlow l w sha).2.1) := by
  have hpda := prevDownload_aligned l w h
  unfold reuseSlow
  split
  · rename_i a l1 c heq
    rw [heq] at hpda
    have hl1 : pathsAligned l1 := hpda
    split
    · exact hl1
    · rename_i reuse hlk
      exact addLayer_aligned w (joinPath l1.prevDir reuse) l1 hl1
  · exact hpda

/-- `ReuseLayer` preserves the slot-per-layer correspondence on every
path (fast path, miss, failure, slow-path re-add). -/
theorem reuseLayer_aligned (w : DockerWorld) (sha : String) (l : LocalImage)
    (h : pathsAligned l) : pathsAligned ((l.ReuseLayer w sha).2.1) := by
  unfold LocalImage.ReuseLayer
  cases l.easyAddLayers with
  | nil => exact reuseSlow_aligned w sha l h
  | cons d rest =>
    by_cases hd : (d == sha) = true
    · simp only [hd, if_true]
      simpa [pathsAligned] using h
    · simp only [Bool.not_eq_true] at hd
      simp only [hd, Bool.false_eq_true, if_false]
      exact reuseSlow_aligned w sha l h

/-- `Rebase` preserves the slot-per-layer correspondence on every path
(the base switch installs one empty slot per new-base layer, the re-add
loop appends pairwise). -/
theorem rebase_aligned (w : DockerWorld) (bt nn : String) (l : LocalImage)
    (h : pathsAligned l) : pathsAligned ((l.Rebase w bt nn).2.1) := by
  unfold LocalImage.Rebase
  split
  · exact h
  · rename_i i hf
    split
    · rename_i nb hfound
      have h1 : pathsAligned
          ({ l with layers := nb.layers,
                    layerPaths := List.replicate nb.layers.length "" } : LocalImage) := by
        simp [pathsAligned]
      have hpda := prevDownload_aligned
        { l with layers := nb.layers, layerPaths := List.replicate nb.layers.length "" } w h1
      split
      · rename_i a l2 c heq
        rw [heq] at hpda
        have h2 : pathsAligned l2 := hpda
        split
        · exact h2
        · rename_i ar har
          split
          · rename_i entry hentry
            exact addLayersLoop_aligned w l2.prevDir
              (entry.Layers.drop (entry.Layers.length - (l.layers.length - i - 1))) l2 h2
          · exact h2
      · exact hpda
    · exact h
    · exact h

/-- C9: the local backend keeps `layerPaths` and `layers` in positional
correspondence — equal lengths after construction, and preserved by
`AddLayer`, `ReuseLayer` and `Rebase` (on every outcome, in particular
every successful one), which is what `Save` relies on when zipping the
archive manifest. -/
theorem layerPaths_layers_aligned :
    (∀ (w : DockerWorld) (name : String) (l : LocalImage),
       newLocalImage w name = .ok l → pathsAligned l)
    ∧ (∀ (w : DockerWorld) (l : LocalImage) (p : String),
       pathsAligned l → pathsAligned ((l.AddLayer w p).2))
    ∧ (∀ (w : DockerWorld) (l : LocalImage) (sha : String),
       pathsAligned l → pathsAligned ((l.ReuseLayer w sha).2.1))
    ∧ (∀ (w : DockerWorld) (l : LocalImage) (bt nn : String),
       pathsAligned l → pathsAligned ((l.Rebase w bt nn).2.1)) := by
  refine ⟨?_, fun w l p h => addLayer_aligned w p l h,
          fun w l sha h => reuseLayer_aligned w sha l h,
          fun w l bt nn h => rebase_aligned w bt nn l h⟩
  intro w name l hnew
  unfold newLocalImage at hnew
  cases hi : w.inspect name <;> rw [hi] at hnew
  · cases hnew; simp [pathsAligned]
  · cases hnew; simp [pathsAligned]
  · cases hnew

/-- C9 witness: the invariant holds for a concrete freshly-constructed
image and is preserved by a concrete `AddLayer`, `ReuseLayer` and
`Rebase`. -/
theorem layerPaths_layers_aligned_witness :
    pathsAligned lC9
    ∧ pathsAligned ((lC9.AddLayer wC9 "/tmp/layer.tar").2)
    ∧ pathsAligned ((lC9.ReuseLayer wC9 "sha256:zzz").2.1)
    ∧ pathsAligned ((lC9.Rebase wC9 "sha256:a" "nb").2.1) :=
  ⟨layerPaths_layers_aligned.1 wC9 "app" lC9 rfl,
   layerPaths_layers_aligned.2.1 wC9 lC9 "/tmp/layer.tar" rfl,
   layerPaths_layers_aligned.2.2.1 wC9 lC9 "sha256:zzz" rfl,
   layerPaths_layers_aligned.2.2.2 wC9 lC9 "sha256:a" "nb" rfl⟩

/-- C6: `configFile` builds the config object whose `rootfs` diff-id
list is exactly the current layers in order; when every step of `Save`
succeeds, the identifier it returns is the sha256 hex of the marshalled
config bytes; and that identifier — an all-hex string — is distinct from
every layer diffID (which, `sha256:`-prefixed, contains a colon). -/
theorem save_config_hash_identity :
    (∀ (w : DockerWorld) (l : LocalImage), (l.configFile w).diff_ids = l.layers)
    ∧ (∀ (w : DockerWorld) (l : LocalImage) (tag : String) (names : List String)
         (d : GoInspect),
       w.parseTag l.RepoName = .ok tag →
       saveLayerNames w l.layerPaths = .ok names →
       w.imageLoad = .ok () →
       w.inspect (w.sha256hex (w.encodeConfig (l.configFile w))) = .found d →
       (l.Save w).1 = .ok (w.sha256hex (w.encodeConfig (l.configFile w))))
    ∧ (∀ (w : DockerWorld) (l : LocalImage),
       (w.sha256hex (w.encodeConfig (l.configFile w))).data.all isHexChar = true →
       ∀ d ∈ l.layers, (':' : Char) ∈ d.data →
       w.sha256hex (w.encodeConfig (l.configFile w)) ≠ d) := by
  refine ⟨fun w l => rfl, fun w l tag names d hp hs hl hi => ?_,
          fun w l hhex d hd hc heq => ?_⟩
  · simp [LocalImage.Save, hp, hs, hl, hi]
  · rw [heq] at hhex
    have := List.all_eq_true.mp hhex (':' : Char) hc
    exact absurd this (by decide)

/-- C6 witness: a concrete one-layer image saved through a world with
constant hash `abc123`: the config's diff-ids are the layers, the save
result is `abc123`, and `abc123` differs from the layer `sha256:x`. -/
theorem save_config_hash_identity_witness :
    (lC6.configFile wC6).diff_ids = ["sha256:x"]
    ∧ (lC6.Save wC6).1 = .ok "abc123"
    ∧ "abc123" ≠ "sha256:x" :=
  ⟨save_config_hash_identity.1 wC6 lC6,
   save_config_hash_identity.2.1 wC6 lC6 "app" [""] ⟨none, []⟩ rfl rfl rfl rfl,
   save_config_hash_identity.2.2 wC6 lC6 (by decide) "sha256:x" (by decide) (by decide)⟩

/-- `findKeepIdx` returns an index into the list it searched. -/
theorem findKeepIdx_lt_length (target : String) :
    ∀ (layers : List String) (i : Nat),
      findKeepIdx target layers = some i → i < layers.length := by
  intro layers
  induction layers with
  | nil => intro i h; exact absurd h (by simp [findKeepIdx])
  | cons d rest ih =>
    intro i h
    unfold findKeepIdx at h
    by_cases hd : (d == target) = true
    · rw [if_pos hd] at h
      cases h
      simp
    · rw [if_neg hd] at h
      cases hr : findKeepIdx target rest with
      | none => rw [hr] at h; cases h
      | some j =>
        rw [hr] at h
        simp only [Option.map_some', Option.some.injEq] at h
        have hj := ih j hr
        simp only [List.length_cons]
        omega

/-- The rebase re-add loop, fed paths whose contents hash back to the
expected diffIDs, succeeds and appends exactly those diffIDs. -/
theorem addLayersLoop_layers (w : DockerWorld) (dir : String) :
    ∀ (fs ds : List String) (l : LocalImage),
      fs.map (fun f => (w.fileHash (joinPath dir f)).map (fun s => "sha256:" ++ s))
        = ds.map Except.ok →
      (addLayersLoop w dir fs l).1 = .ok ()
      ∧ (addLayersLoop w dir fs l).2.layers = l.layers ++ ds := by
  intro fs
  induction fs with
  | nil =>
    intro ds l h
    have hds : ds = [] := by
      cases ds with
      | nil => rfl
      | cons d ds => simp at h
    subst hds
    exact ⟨rfl, by simp [addLayersLoop]⟩
  | cons f fs ih =>
    intro ds l h
    cases ds with
    | nil => simp at h
    | cons d ds =>
      simp only [List.map_cons, List.cons.injEq] at h
      obtain ⟨h1, h2⟩ := h
      cases hh : w.fileHash (joinPath dir f) with
      | error e => rw [hh] at h1; simp [Except.map] at h1
      | ok s =>
        rw [hh] at h1
        simp only [Except.map, Except.ok.injEq] at h1
        simp only [addLayersLoop, LocalImage.AddLayer, hh]
        have hrec := ih ds
          { l with layers := l.layers ++ ["sha256:" ++ s],
                   layerPaths := l.layerPaths ++ [joinPath dir f],
                   easyAddLayers := [] } h2
        refine ⟨hrec.1, Eq.trans hrec.2 ?_⟩
        simp [h1]

/-- `subImage.Layers` returns the prefix of the layer list up to and
including the first layer whose diffID is the split point. -/
theorem subImageLayers_prefix (topSHA : String) :
    ∀ (pre post : List VLayer) (s : VLayer),
      s.diffID = .ok topSHA →
      pre.all (layerNotSha topSHA) = true →
      subImageLayers topSHA (pre ++ s :: post) = .ok (pre ++ [s]) := by
  intro pre
  induction pre with
  | nil =>
    intro post s hs hall
    simp [subImageLayers, hs]
  | cons ly pre ih =>
    intro post s hs hall
    rw [List.all_cons, Bool.and_eq_true] at hall
    obtain ⟨h1, h2⟩ := hall
    unfold layerNotSha at h1
    simp only [List.cons_append, subImageLayers]
    cases hd : ly.diffID with
    | error e => rw [hd] at h1; exact absurd h1 (by simp)
    | ok dd =>
      rw [hd] at h1
      simp only [Bool.not_eq_eq_eq_not, Bool.not_true] at h1
      simp [h1, ih post s hs h2, Except.map]

/-- C3: when the split diffID sits at (first) index `i` of the current
layers, rebasing onto a readable new base yields layers equal to the new
base's layers concatenated with the last `k = len - i - 1` entries of the
old sequence, positionally retained: the local backend re-adds the last
`k` archive entries (whose contents hash back to the original diffIDs,
the hypotheses tying the exported archive to the pre-rebase image), and
the remote backend's `subImage.Layers` carves off exactly the first
`i + 1` layers for `mutate.Rebase` to swap, keeping `all[i+1:]`. -/
theorem rebase_layers_concat :
    (∀ (w : DockerWorld) (l : LocalImage) (splitID newBaseName : String) (i : Nat)
       (nb : GoInspect) (ar : Archive) (entry : ManifestEntry),
       findKeepIdx splitID l.layers = some i →
       l.onceDone = false →
       w.inspect newBaseName = .found nb →
       w.imageSave l.RepoName = .ok ar →
       ar.manifest = [entry] →
       ar.configs.lookup entry.Config = some l.layers →
       entry.Layers.length = l.layers.length →
       (entry.Layers.drop (i + 1)).map
           (fun f => (w.fileHash (joinPath ar.dir f)).map (fun s => "sha256:" ++ s))
         = (l.layers.drop (i + 1)).map Except.ok →
       (l.Rebase w splitID newBaseName).1 = .ok ()
       ∧ ((l.Rebase w splitID newBaseName).2.1).layers = nb.layers ++ l.layers.drop (i + 1))
    ∧ (∀ (topSHA : String) (pre post : List VLayer) (s : VLayer),
       s.diffID = .ok topSHA →
       pre.all (layerNotSha topSHA) = true →
       subImageLayers topSHA (pre ++ s :: post) = .ok (pre ++ [s])) := by
  constructor
  · intro w l splitID newBaseName i nb ar entry hfi honce hins hsave hman hcfg hlen hmap
    have hlt := findKeepIdx_lt_length splitID l.layers i hfi
    have harith : l.layers.length - (l.layers.length - i - 1) = i + 1 := by omega
    simp only [LocalImage.Rebase, hfi, hins, LocalImage.prevDownload, honce,
               Bool.false_eq_true, if_false, hsave, hman, hcfg, hlen, harith,
               ne_eq, not_true_eq_false]
    have hloop := addLayersLoop_layers w ar.dir (entry.Layers.drop (i + 1))
      (l.layers.drop (i + 1))
      { l with layers := nb.layers,
               layerPaths := List.replicate nb.layers.length "",
               onceDone := true, prevDir := ar.dir, prevArchive := some ar,
               prevMap := (l.layers.zip entry.Layers).foldl (fun m p => p :: m) [] }
      hmap
    exact ⟨hloop.1, hloop.2⟩
  · exact subImageLayers_prefix

/-- C3 witness: layers `[b1, b2, a1]` with split `b2` rebased onto a base
with layers `[c1]` yield `[c1, a1]` on the local backend; the remote
sub-image of `[b1, b2, a1]` at split `b2` is `[b1, b2]`. -/
theorem rebase_layers_concat_witness :
    (lC3.Rebase wC3 "sha256:b2" "newbase").1 = .ok ()
    ∧ ((lC3.Rebase wC3 "sha256:b2" "newbase").2.1).layers = ["sha256:c1", "sha256:a1"]
    ∧ subImageLayers "sha256:b2" [⟨.ok "sha256:b1"⟩, sC3, ⟨.ok "sha256:a1"⟩] =
        .ok [⟨.ok "sha256:b1"⟩, sC3] := by
  have h := rebase_layers_concat.1 wC3 lC3 "sha256:b2" "newbase" 1 nbC3 arC3
    ⟨"cfg.json", ["l0.tar", "l1.tar", "l2.tar"]⟩
    (by decide) rfl (by decide) rfl rfl (by decide) rfl (by decide)
  exact ⟨h.1, h.2,
    rebase_layers_concat.2 "sha256:b2" [⟨.ok "sha256:b1"⟩] [⟨.ok "sha256:a1"⟩] sC3
      rfl (by decide)⟩

/-- C2: the claim says both backends replace an existing key in place.
On the local backend `SetEnv` unconditionally appends: starting from env
`[FOO=1]`, `SetEnv FOO 2` yields two `FOO` entries `[FOO=1, FOO=2]`, and a
subsequent `Env FOO` still reads the stale `1`.  The remote backend does
replace in place, yielding `[FOO=2]`. -/
theorem setEnv_local_appends_remote_replaces :
    ((lC2.SetEnv "FOO" "2").2.config.map GoContainerConfig.Env = some ["FOO=1", "FOO=2"])
    ∧ ((lC2.SetEnv "FOO" "2").2.Env "FOO" = .ok "1")
    ∧ ((rC2.SetEnv "FOO" "2").2.configFile.map RConfig.Env = some ["FOO=2"]) := by
  refine ⟨rfl, ?_, ?_⟩ <;> decide

/-- C4: on both backends `TopLayer` reads `all[len(all)-1]` with no
emptiness check, so an image whose layers sequence is empty panics with an
index-out-of-range instead of failing with an `EmptyImage` error. -/
theorem topLayer_empty_image_panics :
    lC4.TopLayer = .panicked ∧ rC4.TopLayer = .panicked :=
  ⟨rfl, rfl⟩

/-- C1 counterexample: the one fetch of the Previous-Image Cache fails
with `boom`; the second trigger does not replay that error — the
once-guard is already fired, the call-local error is nil, and
`prevDownload` returns success with the cache unpopulated, so a
`ReuseLayer` after the failed fetch reports a layer-lookup miss, not the
stored fetch error. -/
theorem prevCache_error_replay_cex :
    lC1.prevDownload wC1 = (.err "boom", lC1b, 1)
    ∧ lC1b.prevDownload wC1 = (.ok (), lC1b, 0)
    ∧ lC1b.ReuseLayer wC1 "sha256:x" =
        (.err "SHA sha256:x was not found in img", lC1b, 0) := by
  refine ⟨?_, rfl, ?_⟩ <;> decide

/-- C7 counterexample: the remote backend's `LayerNotFound` message names
only the requested diffID; the image name searched
(`registry.example/app`) appears nowhere in it. -/
theorem reuse_missing_layer_error_omits_name :
    rC7.ReuseLayer wRegNoop "sha256:bbb" =
      (.err ("previous image did not have layer with sha " ++ quoted "sha256:bbb"), rC7, 0)
    ∧ ¬ List.IsInfix "registry.example/app".toList
        ("previous image did not have layer with sha " ++ quoted "sha256:bbb").toList := by
  refine ⟨?_, ?_⟩ <;> decide

end Imgutil
